import Mathlib

/-
Verification of the configuration-assembly and query-client core of ch-tools
(src/common/clickhouse.py) against its natural-language specification.

The hierarchical documents produced by xmltodict.parse are modelled by the
inductive type `Val`: a node is a scalar string, an ordered mapping from
element names to child nodes (a Python dict, modelled as an association list
with unique keys), or an ordered sequence of child nodes (a Python list, used
by xmltodict for repeated elements).  Attribute entries carry keys starting
with '@' and always map to scalar strings.
-/

namespace ChTools

inductive Val where
  | str : String → Val
  | dict : List (String × Val) → Val
  | seq : List Val → Val


abbrev Dict := List (String × Val)


/-- Python `d[k]` / `k in d` lookup on an association list (first match). -/
def dlookup {α : Type} : List (String × α) → String → Option α
  | [], _ => none
  | (k, v) :: rest, key => if k = key then some v else dlookup rest key


/-- Python `d[k] = v`: replace the value at the first occurrence of `k`,
keeping its position, or append `(k, v)` at the end when `k` is absent. -/
def dictSet {α : Type} : List (String × α) → String → α → List (String × α)
  | [], k, v => [(k, v)]
  | (k', v') :: rest, k, v =>
    if k' = k then (k, v) :: rest else (k', v') :: dictSet rest k v


/-- Python `del d[k]`: remove the entries keyed by `k`. -/
def dictDel {α : Type} : List (String × α) → String → List (String × α)
  | [], _ => []
  | (k', v') :: rest, k =>
    if k' = k then dictDel rest k else (k', v') :: dictDel rest k


/-!
Include resolution (ClickhouseConfig.load, lines 228-244).

The Python pass iterates over a shallow copy of the items of the top-level
section (`root_section.copy().items()`), so it visits the original
(key, section-object) pairs in their original order while mutating
`root_section` itself.  Two kinds of mutation occur:
- rebinding or deleting keys of `root_section`
  (`root_section[key] = root_section[include]`, `del root_section[include]`);
- deleting the '@incl' entry of a visited section object in place
  (`del config_section['@incl']`), which is observable through every key
  currently bound to that object, because `root_section[key] =
  root_section[include]` aliases the very object rather than copying it.
The model tracks the key-to-object bindings as an association list whose
values are the original section objects (no new object is ever created by
the pass), and applies the in-place '@incl' deletion at the end: every
original object that is a dict with a truthy '@incl' value gets it deleted
exactly once, at its own iteration step.
-/
/-- Truthy include marker of a section: `config_section.get('@incl')` when
`config_section` is a dict and the value is a non-empty string (attribute
values produced by xmltodict are always strings; an empty string is falsy,
so the code `continue`s without touching it). -/
def inclOf : Val → Option String
  | Val.dict d =>
    match dlookup d "@incl" with
    | some (Val.str s) => if s = "" then none else some s
    | _ => none
  | _ => none


/-- Whether a node is a dict having an '@incl' entry at all (truthy or not). -/
def hasInclKey : Val → Bool
  | Val.dict d => (dlookup d "@incl").isSome
  | _ => false


/-- Effect of `del config_section['@incl']` on a section object; the deletion
is executed exactly for the objects whose marker is truthy (falsy markers are
skipped by `continue` before the `del`). -/
def stripIncl (v : Val) : Val :=
  match v with
  | Val.dict d => if (inclOf (Val.dict d)).isSome then Val.dict (dictDel d "@incl") else Val.dict d
  | v => v


/-- One iteration of the include loop acting on the key-to-object bindings:
`if include != key and include in root_section:
   root_section[key] = root_section[include]; del root_section[include]`.
`item` is the original (key, object) pair from the iterated copy. -/
def inclStep (cur : Dict) (item : String × Val) : Dict :=
  match inclOf item.2 with
  | none => cur
  | some incl =>
    if incl = item.1 then cur
    else
      match dlookup cur incl with
      | none => cur
      | some sib => dictDel (dictSet cur item.1 sib) incl


/-- The include-resolution pass of ClickhouseConfig.load on the top-level
section: run the loop over the original items, then materialise the in-place
'@incl' deletions on every bound object. -/
def processIncludes (root : Dict) : Dict :=
  (root.foldl inclStep root).map (fun p => (p.1, stripIncl p.2))


/-- `ClickhouseConfig.load`'s include phase on the whole document:
`root_key = next(iter(config))` selects the first key, and the pass runs on
the section stored there. -/
def loadProcessIncludes (config : Dict) : Dict :=
  match config with
  | (rootKey, Val.dict rootSection) :: rest =>
    (rootKey, Val.dict (processIncludes rootSection)) :: rest
  | c => c


/-!
Config assembly (ClickhouseConfig.load, lines 222-226): when no preprocessed
config exists, the main config is loaded, the cluster config is deep-merged
into it, and then every file of the override directory is deep-merged in the
order produced by `os.listdir` — the code does not sort that listing.
-/
mutual
/-- Modelled from the spec: `deep_merge` from `cloud.mdb.internal.python.utils`,
which is not under src/.  Per spec §4.2, `merge(dest, src)` handles each key of
`src` in order: if the key is absent in `dest`, insert it; if both values are
mappings, recurse; otherwise `src`'s value replaces `dest`'s value entirely. -/
def deep_merge (dest : Dict) : Dict → Dict
  | [] => dest
  | (k, v) :: rest => deep_merge (mergeEntry dest k v) rest

/-- Merge policy for a single key of `src` (helper of `deep_merge`). -/
def mergeEntry (dest : Dict) (k : String) (v : Val) : Dict :=
  match dlookup dest k, v with
  | none, _ => dest ++ [(k, v)]
  | some (Val.dict dd), Val.dict sv => dictSet dest k (Val.dict (deep_merge dd sv))
  | some _, _ => dictSet dest k v
end

/-- Byte-wise filename comparison, used to express the spec's "sorted by name". -/
def strLe (a b : String) : Bool :=
  lexLe a.data b.data
where
  lexLe : List Char → List Char → Bool
    | [], _ => true
    | _ :: _, [] => false
    | x :: xs, y :: ys =>
      if x.toNat < y.toNat then true
      else if y.toNat < x.toNat then false
      else lexLe xs ys


def insertByName (p : String × Dict) : List (String × Dict) → List (String × Dict)
  | [] => [p]
  | q :: rest => if strLe p.1 q.1 then p :: q :: rest else q :: insertByName p rest


def sortByName : List (String × Dict) → List (String × Dict)
  | [] => []
  | p :: rest => insertByName p (sortByName rest)


/-- Assembly performed by ClickhouseConfig.load when no preprocessed config
exists: main config, then the cluster config deep-merged into it, then each
override-directory file deep-merged in the order of `listing` (the pairs are
filename and parsed contents, in the order `os.listdir` returned them). -/
def assembleConfig (main cluster : Dict) (listing : List (String × Dict)) : Dict :=
  listing.foldl (fun acc f => deep_merge acc f.2) (deep_merge main cluster)


/-- Assembly as the spec words it: the override directory files are merged
after sorting the listing lexicographically by filename. -/
def assembleConfigSorted (main cluster : Dict) (listing : List (String × Dict)) : Dict :=
  assembleConfig main cluster (sortByName listing)


/-!
Secret masking (_mask_secrets, lines 333-339).  The Python function recurses
only into values that are mappings (`isinstance(value, MutableMapping)`);
any other value — scalar or list — under a denylisted key is replaced by
'*****', and lists are never descended into.
-/
/-- Denylist test `key in ('password', 'secret_access_key', 'header', 'identity')`. -/
def isSecretKey (k : String) : Bool :=
  k = "password" || k = "secret_access_key" || k = "header" || k = "identity"


mutual
/-- `_mask_secrets(config)`: recurses when `config` is a mapping, otherwise
does nothing. -/
def mask_secrets : Val → Val
  | Val.dict d => Val.dict (maskItems d)
  | v => v

/-- Loop body of `_mask_secrets` over `list(config.items())`. -/
def maskItems : List (String × Val) → List (String × Val)
  | [] => []
  | (k, v) :: rest => (k, maskEntry k v) :: maskItems rest

/-- Treatment of a single item: mappings are recursed into (even under a
denylisted key); any other value under a denylisted key becomes '*****'. -/
def maskEntry (k : String) (v : Val) : Val :=
  match v with
  | Val.dict dd => Val.dict (maskItems dd)
  | v => if isSecretKey k then Val.str "*****" else v
end

/-- Path lookup through nested mappings: follows each key through dict
nodes; a scalar or sequence node ends the walk. -/
def lookupPath : Val → List String → Option Val
  | v, [] => some v
  | Val.dict d, k :: rest =>
    (match dlookup d k with
     | some v => lookupPath v rest
     | none => none)
  | Val.str _, _ :: _ => none
  | Val.seq _, _ :: _ => none


/-!
Config dumping (_dump_config, lines 321-330, and the dump/dump_xml methods of
the three config views).  `_dump_config` deep-copies the tree, masks the copy
in place when requested, and optionally serialises it with xmltodict.unparse.
Each model function returns the produced dump together with the state of the
caller's configuration tree after the call: `deepcopy` allocates a fresh
object graph, so the in-place `_mask_secrets` mutation applies only to the
copy and the caller's tree comes back unchanged.
-/
/-- `copy.deepcopy`: denotes the same tree (the fresh object graph matters
only for aliasing, which the paired state components account for). -/
def deepcopy (v : Val) : Val := v


mutual
/-- Simplified stand-in for `xmltodict.unparse`: serialises an element.  The
exact text format is irrelevant to the claims; what matters is that it is a
pure function of the (possibly masked) copy. -/
def xmlOfVal (name : String) : Val → String
  | Val.str s => "<" ++ name ++ ">" ++ s ++ "</" ++ name ++ ">"
  | Val.dict d => "<" ++ name ++ ">" ++ xmlOfItems d ++ "</" ++ name ++ ">"
  | Val.seq l => xmlOfSeq name l

def xmlOfItems : List (String × Val) → String
  | [] => ""
  | (k, v) :: rest => xmlOfVal k v ++ xmlOfItems rest

def xmlOfSeq (name : String) : List Val → String
  | [] => ""
  | v :: rest => xmlOfVal name v ++ xmlOfSeq name rest
end

/-- `xmltodict.unparse` at the document level (single root element). -/
def unparse (config : Val) : String :=
  match config with
  | Val.dict ((root, v) :: _) => xmlOfVal root v
  | _ => ""


/-- `_dump_config(config, mask_secrets=..., xml_format=False)`: the dumped
tree paired with the post-call state of the caller's `config` tree. -/
def dump_config (config : Val) (maskSecretsFlag : Bool) : Val × Val :=
  let result := deepcopy config
  let result := if maskSecretsFlag then mask_secrets result else result
  (result, config)


/-- `_dump_config(config, mask_secrets=..., xml_format=True)`. -/
def dump_config_xml (config : Val) (maskSecretsFlag : Bool) : String × Val :=
  let result := deepcopy config
  let result := if maskSecretsFlag then mask_secrets result else result
  (unparse result, config)


/-- ClickhouseConfig view (lines 174-245): assembled tree plus the
`preprocessed` flag. -/
structure ClickhouseConfig where
  config : Val
  preprocessed : Bool


def ClickhouseConfig.dump (c : ClickhouseConfig) (maskSecretsFlag : Bool) :
    Val × ClickhouseConfig :=
  ((dump_config c.config maskSecretsFlag).1,
   { c with config := (dump_config c.config maskSecretsFlag).2 })


def ClickhouseConfig.dump_xml (c : ClickhouseConfig) (maskSecretsFlag : Bool) :
    String × ClickhouseConfig :=
  ((dump_config_xml c.config maskSecretsFlag).1,
   { c with config := (dump_config_xml c.config maskSecretsFlag).2 })


/-- ClickhouseUsersConfig view (lines 248-264). -/
structure ClickhouseUsersConfig where
  config : Val


def ClickhouseUsersConfig.dump (c : ClickhouseUsersConfig) (maskSecretsFlag : Bool) :
    Val × ClickhouseUsersConfig :=
  ((dump_config c.config maskSecretsFlag).1,
   { c with config := (dump_config c.config maskSecretsFlag).2 })


def ClickhouseUsersConfig.dump_xml (c : ClickhouseUsersConfig) (maskSecretsFlag : Bool) :
    String × ClickhouseUsersConfig :=
  ((dump_config_xml c.config maskSecretsFlag).1,
   { c with config := (dump_config_xml c.config maskSecretsFlag).2 })


/-- ClickhouseKeeperConfig view (lines 267-313). -/
structure ClickhouseKeeperConfig where
  config : Val
  config_path : String


def ClickhouseKeeperConfig.dump (c : ClickhouseKeeperConfig) (maskSecretsFlag : Bool) :
    Val × ClickhouseKeeperConfig :=
  ((dump_config c.config maskSecretsFlag).1,
   { c with config := (dump_config c.config maskSecretsFlag).2 })


def ClickhouseKeeperConfig.dump_xml (c : ClickhouseKeeperConfig) (maskSecretsFlag : Bool) :
    String × ClickhouseKeeperConfig :=
  ((dump_config_xml c.config maskSecretsFlag).1,
   { c with config := (dump_config_xml c.config maskSecretsFlag).2 })


/-!
Query client (ClickhouseClient, lines 29-146).  The HTTP transport is a
parameter: each attempt maps the issued POST request to either a
connection-level failure (`requests.exceptions.ConnectionError`) or an HTTP
response.  `requests.Response.raise_for_status` raises `HTTPError` exactly
for status codes 400-599; the `retry` decorator (tenacity, lines 29-38) is
modelled by an explicit attempt loop that retries only exceptions of the
configured type, stops after the configured number of attempts, and re-raises
the last exception.
-/
/-- ASCII whitespace as recognised by Python's `str.strip` and the regex
class `\s` (space, tab, newline, carriage return, vertical tab, form feed);
non-ASCII whitespace is not modelled, queries being ASCII. -/
def isPyWs (c : Char) : Bool :=
  c = ' ' || c = '\t' || c = '\n' || c = '\r' || c = '\x0b' || c = '\x0c'


def pyStripList (l : List Char) : List Char :=
  ((l.dropWhile isPyWs).reverse.dropWhile isPyWs).reverse


/-- Python `str.strip()`. -/
def pyStrip (s : String) : String := String.mk (pyStripList s.data)


/-- Flush a pending whitespace run (accumulated in reverse): a run that
contained a newline collapses to one space, any other run is kept. -/
def flushRun (run : List Char) (sawNl : Bool) : List Char :=
  match run with
  | [] => []
  | _ :: _ => if sawNl then [' '] else run.reverse


/-- Scanner for `re.sub(r'\s*\n\s*', ' ', text)`: the greedy pattern
consumes exactly the maximal whitespace run around each newline group, so
every maximal whitespace run containing at least one newline collapses to a
single space and every other character is kept.  `run` accumulates the
current whitespace run in reverse, `sawNl` whether it contains a newline. -/
def collapseAux (run : List Char) (sawNl : Bool) : List Char → List Char
  | [] => flushRun run sawNl
  | c :: rest =>
    if isPyWs c then collapseAux (c :: run) (sawNl || c = '\n') rest
    else flushRun run sawNl ++ c :: collapseAux [] false rest


def collapseNl (l : List Char) : List Char := collapseAux [] false l


/-- Query normalisation performed by `ClickhouseError.__init__` (line 47):
`re.sub(r'\s*\n\s*', ' ', query.strip())`. -/
def normalizeQuery (q : String) : String :=
  String.mk (collapseNl (pyStripList q.data))


structure HTTPResponse where
  status : Nat
  body : String


/-- Exceptions escaping `ClickhouseClient.query`: a transport-level
connection error, or `ClickhouseError` (lines 41-49) carrying the normalised
query text and the raw error response. -/
inductive QueryException where
  | connectionError (info : String)
  | clickhouseError (query : String) (response : HTTPResponse)


/-- Result of a successful `query` call: `None` for a dry run, parsed JSON
body for the JSON formats, else the response text stripped. -/
inductive QueryResult where
  | null
  | text (s : String)
  | jsonBody (s : String)


structure ClickhouseClient where
  url : String
  settings : List (String × String)
  timeout : Nat
  chVersion : Option String


/-- `ClickhouseClient.__init__` (lines 57-69): port defaults to 8443,
timeout to 60, settings to empty; `_ch_version` starts unset. -/
def mkClient (host : String) (port : Option Nat) (timeout : Option Nat)
    (settings : List (String × String)) : ClickhouseClient :=
  { url := "https://" ++ host ++ ":" ++ toString (port.getD 8443)
  , settings := settings
  , timeout := timeout.getD 60
  , chVersion := none }


structure PostRequest where
  params : List (String × String)
  timeout : Nat


/-- Query text after the optional `FORMAT` suffix (line 95-96). -/
def buildQueryText (q : String) (fmt : Option String) : String :=
  match fmt with
  | some f => q ++ " FORMAT " ++ f
  | none => q


/-- The POST request issued at lines 104-116: parameters are the session
settings with `query` set on top (`{**self._settings, 'query': query}`), and
the timeout is `max(self._timeout, timeout or 0)` (line 104). -/
def buildRequest (c : ClickhouseClient) (q : String) (fmt : Option String)
    (tArg : Option Nat) : PostRequest :=
  { params := dictSet c.settings "query" (buildQueryText q fmt)
  , timeout := max c.timeout (tArg.getD 0) }


inductive TransportOutcome where
  | connError (info : String)
  | response (r : HTTPResponse)


/-- One un-retried execution of `ClickhouseClient.query` (lines 88-125),
with rendering already done: dry runs return None without touching the
network; a connection error propagates as such; a 4xx/5xx response (the
statuses for which `raise_for_status` raises `HTTPError`) becomes
`ClickhouseError` with the normalised query and the raw response; otherwise
the body is returned — parsed for the JSON formats, stripped text else. -/
def queryOnce (c : ClickhouseClient) (q : String) (fmt : Option String) (tArg : Option Nat)
    (dryRun : Bool) (transport : PostRequest → TransportOutcome) :
    Except QueryException QueryResult :=
  if dryRun then Except.ok QueryResult.null
  else
    match transport (buildRequest c q fmt tArg) with
    | TransportOutcome.connError e => Except.error (QueryException.connectionError e)
    | TransportOutcome.response r =>
      if 400 ≤ r.status ∧ r.status ≤ 599 then
        Except.error (QueryException.clickhouseError
          (normalizeQuery (buildQueryText q fmt)) r)
      else if fmt = some "JSON" ∨ fmt = some "JSONCompact" then
        Except.ok (QueryResult.jsonBody r.body)
      else Except.ok (QueryResult.text (pyStrip r.body))


/-- `retry_if_exception_type(requests.exceptions.ConnectionError)`: only
connection errors are retried. -/
def retryable : QueryException → Bool
  | QueryException.connectionError _ => true
  | QueryException.clickhouseError _ _ => false


/-- The tenacity retry loop with `stop_after_attempt` and `reraise=True`:
`i` is the index of the current attempt, the second argument is the number
of attempts still allowed; a non-retryable exception propagates immediately,
and after the last allowed attempt the final exception is re-raised
unchanged.  Returns the outcome together with the number of attempts made. -/
def retryCall {α : Type} (f : Nat → Except QueryException α) :
    Nat → Nat → Except QueryException α × Nat
  | i, 0 => (f i, i + 1)
  | i, n + 1 =>
    match f i with
    | Except.ok a => (Except.ok a, i + 1)
    | Except.error e =>
      if n = 0 then (Except.error e, i + 1)
      else if retryable e then retryCall f (i + 1) n
      else (Except.error e, i + 1)


/-- `ClickhouseClient.query` under its `@retry(requests.exceptions.ConnectionError)`
decorator: 5 attempts maximum (the decorator's default `max_attempts=5`). -/
def queryWithRetry (c : ClickhouseClient) (q : String) (fmt : Option String)
    (tArg : Option Nat) (dryRun : Bool)
    (transport : Nat → PostRequest → TransportOutcome) :
    Except QueryException QueryResult × Nat :=
  retryCall (fun i => queryOnce c q fmt tArg dryRun (transport i)) 0 5


/-- Upper bound of `tenacity.wait_random_exponential(multiplier, max)`: the
wait before a retry is drawn uniformly from `[0, min(max, multiplier * 2^n)]`. -/
def waitRandomExponentialHigh (multiplier maxInterval : ℚ) (n : Nat) : ℚ :=
  min maxInterval (multiplier * 2 ^ n)


/-!
Template helpers (_format_str_match and _format_str_imatch, lines 342-355)
and version gating (get_clickhouse_version, lines 71-78, with render_query,
lines 127-135).
-/
/-- Python `sep in value` / `value.find(sep) < 0` test for a character. -/
def containsChar (s : String) (c : Char) : Bool :=
  s.data.contains c


/-- Python `value.split(sep)` for a one-character separator: splits at every
occurrence, keeping empty pieces (`"".split(',') == ['']`). -/
def splitOnChar (c : Char) : List Char → List (List Char)
  | [] => [[]]
  | x :: xs =>
    if x = c then [] :: splitOnChar c xs
    else
      match splitOnChar c xs with
      | h :: t => (x :: h) :: t
      | [] => [[x]]


def pySplit (s : String) (c : Char) : List String :=
  (splitOnChar c s.data).map String.mk


/-- `_format_str_match` (lines 342-349): no clause for an absent value;
`LIKE '<value>'` when the value has no comma (`value.find(',') < 0`);
otherwise `IN (...)` built by splitting on commas and stripping each item. -/
def format_str_match : Option String → Option String
  | none => none
  | some value =>
    if containsChar value ',' = false then
      some ("LIKE '" ++ value ++ "'")
    else
      some ("IN (" ++ String.intercalate ","
        ((pySplit value ',').map (fun item => "'" ++ pyStrip item ++ "'")) ++ ")")


/-- `_format_str_imatch` (lines 352-355): lowercases, then delegates. -/
def format_str_imatch : Option String → Option String
  | none => none
  | some value => format_str_match (some value.toLower)


/-- Modelled from the spec: `version_ge` from
`cloud.mdb.clickhouse.tools.common.utils`, which is not under src/ — the
spec describes it as dotted-numeric comparison, true when the server version
is greater than or equal to the supplied version. -/
def digitsToNat : List Char → Nat → Nat
  | [], acc => acc
  | c :: rest, acc => digitsToNat rest (acc * 10 + (c.toNat - 48))


def parseVersion (s : String) : List Nat :=
  (pySplit s '.').map (fun part => digitsToNat part.data 0)


def versionListGe : List Nat → List Nat → Bool
  | _, [] => true
  | [], _ :: _ => false
  | a :: as, b :: bs =>
    if b < a then true else if a < b then false else versionListGe as bs


def version_ge (a b : String) : Bool :=
  versionListGe (parseVersion a) (parseVersion b)


/-- `get_clickhouse_version` (lines 71-78): returns the memoized version if
present, otherwise performs the `SELECT version()` query — whose outcome
`serverVersion` is supplied by the environment — stores it, and returns it.
The third component counts the queries issued by the call. -/
def get_clickhouse_version (c : ClickhouseClient) (serverVersion : String) :
    String × ClickhouseClient × Nat :=
  match c.chVersion with
  | some v => (v, c, 0)
  | none => (serverVersion, { c with chVersion := some serverVersion }, 1)


/-- One evaluation of the `version_ge` template global during a render_query
call (line 130): `lambda version: version_ge(self.get_clickhouse_version(), version)`. -/
def renderVersionGe (c : ClickhouseClient) (serverVersion v : String) :
    Bool × ClickhouseClient × Nat :=
  (version_ge (get_clickhouse_version c serverVersion).1 v,
   (get_clickhouse_version c serverVersion).2.1,
   (get_clickhouse_version c serverVersion).2.2)


/-- A sequence of render_query invocations each evaluating `version_ge` once
on the same client; returns the rendered results, the final client state and
the total number of `SELECT version()` queries issued. -/
def renderSeq (c : ClickhouseClient) (serverVersion : String) :
    List String → List Bool × ClickhouseClient × Nat
  | [] => ([], c, 0)
  | v :: vs =>
    ((renderVersionGe c serverVersion v).1
        :: (renderSeq (renderVersionGe c serverVersion v).2.1 serverVersion vs).1,
     (renderSeq (renderVersionGe c serverVersion v).2.1 serverVersion vs).2.1,
     (renderVersionGe c serverVersion v).2.2
        + (renderSeq (renderVersionGe c serverVersion v).2.1 serverVersion vs).2.2)


/-!
Macros accessor (ClickhouseConfig._config_root, macros and cluster_name,
lines 183-197).
-/
/-- `_config_root`: `self._config.get('clickhouse', self._config.get('yandex', {}))`.
A present root section is always a mapping in well-formed documents (any
other shape makes the Python accessors fail with AttributeError downstream);
non-mapping roots are modelled as the empty mapping. -/
def configRoot (config : Dict) : Dict :=
  match dlookup config "clickhouse" with
  | some (Val.dict d) => d
  | some _ => []
  | none =>
    match dlookup config "yandex" with
    | some (Val.dict d) => d
    | _ => []


/-- `macros` (lines 187-193): the macros section filtered of keys starting
with '@'.  A present macros value is a mapping in the documents the accessor
supports (`.items()` fails otherwise). -/
def macros (config : Dict) : Dict :=
  match dlookup (configRoot config) "macros" with
  | some (Val.dict m) => m.filter (fun kv => !(kv.1.startsWith "@"))
  | _ => []


/-- `cluster_name` (lines 195-197): `self.macros['cluster']`; the Option
models the KeyError when absent. -/
def cluster_name (config : Dict) : Option Val :=
  dlookup (macros config) "cluster"


theorem dlookup_nil {α : Type} (k : String) : dlookup ([] : List (String × α)) k = none := rfl


theorem dlookup_dictSet_self {α : Type} (l : List (String × α)) (k : String) (v : α) :
    dlookup (dictSet l k v) k = some v := by
  induction l with
  | nil => simp [dictSet, dlookup]
  | cons p rest ih =>
    obtain ⟨k', v'⟩ := p
    by_cases h : k' = k
    · simp [dictSet, dlookup, h]
    · simp [dictSet, dlookup, h, ih]


theorem dlookup_dictSet_ne {α : Type} (l : List (String × α)) (k k' : String) (v : α)
    (h : k' ≠ k) : dlookup (dictSet l k v) k' = dlookup l k' := by
  induction l with
  | nil => simp [dictSet, dlookup, Ne.symm h]
  | cons p rest ih =>
    obtain ⟨k0, v0⟩ := p
    by_cases h0 : k0 = k
    · subst h0
      simp [dictSet, dlookup, Ne.symm h]
    · simp [dictSet, dlookup, h0, ih]


theorem dlookup_dictDel_self {α : Type} (l : List (String × α)) (k : String) :
    dlookup (dictDel l k) k = none := by
  induction l with
  | nil => rfl
  | cons p rest ih =>
    obtain ⟨k0, v0⟩ := p
    by_cases h : k0 = k
    · simpa [dictDel, dlookup, h] using ih
    · simp [dictDel, dlookup, h, ih]


theorem dlookup_dictDel_ne {α : Type} (l : List (String × α)) (k k' : String) (h : k' ≠ k) :
    dlookup (dictDel l k) k' = dlookup l k' := by
  induction l with
  | nil => rfl
  | cons p rest ih =>
    obtain ⟨k0, v0⟩ := p
    by_cases h0 : k0 = k
    · subst h0
      simp [dictDel, dlookup, Ne.symm h, ih]
    · simp [dictDel, dlookup, h0, ih]


theorem dlookup_of_mem_nodup {α : Type} (l : List (String × α)) (k : String) (v : α)
    (hmem : (k, v) ∈ l) (hnd : (l.map Prod.fst).Nodup) : dlookup l k = some v := by
  induction l with
  | nil => cases hmem
  | cons p rest ih =>
    obtain ⟨k0, v0⟩ := p
    simp only [List.map_cons, List.nodup_cons] at hnd
    rcases List.mem_cons.mp hmem with h | h
    · cases h
      simp [dlookup]
    · have hk0 : k0 ≠ k := by
        intro hkk
        subst hkk
        exact hnd.1 (List.mem_map.mpr ⟨(k0, v), h, rfl⟩)
      simp [dlookup, hk0, ih h hnd.2]


theorem foldl_inclStep_id (l : List (String × Val)) (cur : Dict)
    (h : ∀ p ∈ l, inclOf p.2 = none) : l.foldl inclStep cur = cur := by
  induction l generalizing cur with
  | nil => rfl
  | cons p rest ih =>
    have hp : inclOf p.2 = none := h p (List.mem_cons_self p rest)
    have hstep : inclStep cur p = cur := by simp [inclStep, hp]
    simp only [List.foldl_cons, hstep]
    exact ih cur (fun q hq => h q (List.mem_cons_of_mem p hq))


theorem dlookup_map_strip (l : Dict) (k : String) :
    dlookup (l.map (fun p => (p.1, stripIncl p.2))) k = (dlookup l k).map stripIncl := by
  induction l with
  | nil => rfl
  | cons p rest ih =>
    obtain ⟨k0, v0⟩ := p
    by_cases h : k0 = k
    · simp [dlookup, h]
    · simp [dlookup, h, ih]


theorem stripIncl_of_no_inclKey (v : Val) (h : hasInclKey v = false) : stripIncl v = v := by
  cases v with
  | str s => rfl
  | seq l => rfl
  | dict d =>
    have h' : dlookup d "@incl" = none := by
      cases hd : dlookup d "@incl" with
      | none => rfl
      | some v => rw [hasInclKey, hd] at h; simp at h
    simp [stripIncl, inclOf, h']


/-- Claim C1, counterexample.  Root with two marked sections:
`foo` carries `@incl = "bar"` and the referenced sibling `bar` itself carries
a truthy marker `@incl = "qux"` (no `qux` sibling exists).  The claim, as
stated, requires `foo` to end up bound to `bar`'s original contents
`{"@incl": "qux", "a": "1"}` and requires `bar` (whose own marker references
the absent `qux`) to be left in place with only its marker stripped.  The
code instead leaves `foo` bound to `{"a": "1"}` — `bar`'s contents with
`bar`'s marker stripped through aliasing, since `root_section["foo"] =
root_section["bar"]` shares the object mutated by `del
config_section['@incl']` at `bar`'s own iteration — and removes the key
`bar` altogether. -/
theorem C1_counterexample :
    dlookup (processIncludes
      [("foo", Val.dict [("@incl", Val.str "bar")]),
       ("bar", Val.dict [("@incl", Val.str "qux"), ("a", Val.str "1")])]) "foo"
      = some (Val.dict [("a", Val.str "1")]) ∧
    dlookup (processIncludes
      [("foo", Val.dict [("@incl", Val.str "bar")]),
       ("bar", Val.dict [("@incl", Val.str "qux"), ("a", Val.str "1")])]) "bar"
      = none ∧
    some (Val.dict [("a", Val.str "1")])
      ≠ some (Val.dict [("@incl", Val.str "qux"), ("a", Val.str "1")]) := by
  refine ⟨rfl, rfl, ?_⟩
  intro h
  have h' := Option.some.inj h
  have h'' := (Val.dict.injEq _ _).mp h'
  simp at h''


/-- Claim C1 (amended): in the include-resolution pass of
ClickhouseConfig.load, consider an immediate child section `(k, sect)` of the
top-level section that is a mapping carrying a truthy '@incl' marker whose
value `incl` differs from `k`, and suppose it is the only immediate child
carrying a truthy '@incl' marker.  If a sibling keyed `incl` exists at the
same level and does not itself contain an '@incl' entry, then after the pass
`k` is bound to the original contents of that sibling and the sibling key is
removed (so no '@incl' marker remains at `k`).  If no such sibling exists,
the section is unchanged except that its '@incl' entry is removed (a silent
no-op, no error). -/
theorem C1_include_resolution (root : Dict) (k : String) (sect : Val) (incl : String)
    (hnd : (root.map Prod.fst).Nodup)
    (hmem : (k, sect) ∈ root)
    (hincl : inclOf sect = some incl)
    (hne : incl ≠ k)
    (huniq : ∀ p ∈ root, p.1 ≠ k → inclOf p.2 = none) :
    (∀ sib, dlookup root incl = some sib → hasInclKey sib = false →
       dlookup (processIncludes root) k = some sib ∧
       dlookup (processIncludes root) incl = none) ∧
    (dlookup root incl = none →
       dlookup (processIncludes root) k = some (stripIncl sect)) := by
  obtain ⟨l1, l2, hsplit⟩ := List.append_of_mem hmem
  have hknotl1 : ∀ p ∈ l1, p.1 ≠ k := by
    intro p hp hpk
    rw [hsplit] at hnd
    simp only [List.map_append, List.map_cons] at hnd
    have := (List.nodup_append.mp hnd).2.2
    exact this (List.mem_map.mpr ⟨p, hp, hpk⟩) (List.mem_cons_self _ _)
  have hknotl2 : ∀ p ∈ l2, p.1 ≠ k := by
    intro p hp hpk
    rw [hsplit] at hnd
    simp only [List.map_append, List.map_cons] at hnd
    have := (List.nodup_append.mp hnd).2.1
    rw [List.nodup_cons] at this
    exact this.1 (List.mem_map.mpr ⟨p, hp, hpk⟩)
  have hl1none : ∀ p ∈ l1, inclOf p.2 = none := fun p hp =>
    huniq p (by rw [hsplit]; exact List.mem_append_left _ hp) (hknotl1 p hp)
  have hl2none : ∀ p ∈ l2, inclOf p.2 = none := fun p hp =>
    huniq p (by rw [hsplit]; exact List.mem_append_right _ (List.mem_cons_of_mem _ hp))
      (hknotl2 p hp)
  have hfoldgen : ∀ cur : Dict, (l1 ++ (k, sect) :: l2).foldl inclStep cur
      = inclStep cur (k, sect) := by
    intro cur
    rw [List.foldl_append, foldl_inclStep_id l1 cur hl1none, List.foldl_cons,
      foldl_inclStep_id l2 _ hl2none]
  have hfold : root.foldl inclStep root = inclStep root (k, sect) := by
    conv_lhs => rw [hsplit]
    rw [hfoldgen, ← hsplit]
  constructor
  · intro sib hsib hnokey
    have hstep : inclStep root (k, sect) = dictDel (dictSet root k sib) incl := by
      simp [inclStep, hincl, hne, hsib]
    have hres : processIncludes root
        = (dictDel (dictSet root k sib) incl).map (fun p => (p.1, stripIncl p.2)) := by
      rw [processIncludes, hfold, hstep]
    constructor
    · rw [hres, dlookup_map_strip, dlookup_dictDel_ne _ _ _ (Ne.symm hne),
        dlookup_dictSet_self]
      simp [stripIncl_of_no_inclKey sib hnokey]
    · rw [hres, dlookup_map_strip, dlookup_dictDel_self]
      rfl
  · intro hnone
    have hstep : inclStep root (k, sect) = root := by
      simp [inclStep, hincl, hne, hnone]
    have hres : processIncludes root = root.map (fun p => (p.1, stripIncl p.2)) := by
      rw [processIncludes, hfold, hstep]
    rw [hres, dlookup_map_strip, dlookup_of_mem_nodup root k sect hmem hnd]
    rfl


theorem C1_include_resolution_witness :
    (dlookup (processIncludes
       [("foo", Val.dict [("@incl", Val.str "bar"), ("x", Val.str "1")]),
        ("bar", Val.dict [("a", Val.str "2")])]) "foo"
       = some (Val.dict [("a", Val.str "2")]) ∧
     dlookup (processIncludes
       [("foo", Val.dict [("@incl", Val.str "bar"), ("x", Val.str "1")]),
        ("bar", Val.dict [("a", Val.str "2")])]) "bar" = none) ∧
    dlookup (processIncludes
       [("quux", Val.dict [("@incl", Val.str "absent"), ("x", Val.str "1")])]) "quux"
       = some (Val.dict [("x", Val.str "1")]) := by
  constructor
  · exact (C1_include_resolution
      [("foo", Val.dict [("@incl", Val.str "bar"), ("x", Val.str "1")]),
       ("bar", Val.dict [("a", Val.str "2")])]
      "foo" (Val.dict [("@incl", Val.str "bar"), ("x", Val.str "1")]) "bar"
      (by decide) (List.mem_cons_self _ _) rfl (by decide) (by decide)).1
      (Val.dict [("a", Val.str "2")]) rfl rfl
  · exact (C1_include_resolution
      [("quux", Val.dict [("@incl", Val.str "absent"), ("x", Val.str "1")])]
      "quux" (Val.dict [("@incl", Val.str "absent"), ("x", Val.str "1")]) "absent"
      (by decide) (List.mem_cons_self _ _) rfl (by decide) (by decide)).2 rfl


theorem dlookup_append_single_ne {α : Type} (l : List (String × α)) (k k' : String) (v : α)
    (h : k' ≠ k) : dlookup (l ++ [(k', v)]) k = dlookup l k := by
  induction l with
  | nil => simp [dlookup, h]
  | cons p rest ih =>
    obtain ⟨k0, v0⟩ := p
    by_cases h0 : k0 = k
    · simp [dlookup, h0]
    · simp [dlookup, h0, ih]


theorem dlookup_append_single_self {α : Type} (l : List (String × α)) (k : String) (v : α)
    (h : dlookup l k = none) : dlookup (l ++ [(k, v)]) k = some v := by
  induction l with
  | nil => simp [dlookup]
  | cons p rest ih =>
    obtain ⟨k0, v0⟩ := p
    by_cases h0 : k0 = k
    · simp [dlookup, h0] at h
    · simp [dlookup, h0] at h ⊢
      exact ih h


theorem mergeEntry_none (dest : Dict) (k : String) (v : Val)
    (hd : dlookup dest k = none) : mergeEntry dest k v = dest ++ [(k, v)] := by
  rw [mergeEntry.eq_def, hd]


theorem mergeEntry_dict_dict (dest : Dict) (k : String) (dd sv : List (String × Val))
    (hd : dlookup dest k = some (Val.dict dd)) :
    mergeEntry dest k (Val.dict sv) = dictSet dest k (Val.dict (deep_merge dd sv)) := by
  rw [mergeEntry.eq_def, hd]


theorem mergeEntry_replace (dest : Dict) (k : String) (v dv : Val)
    (hd : dlookup dest k = some dv)
    (hnot : ∀ dd sv, dv = Val.dict dd → v = Val.dict sv → False) :
    mergeEntry dest k v = dictSet dest k v := by
  rw [mergeEntry.eq_def, hd]
  cases dv with
  | dict dd =>
    cases v with
    | dict sv => exact (hnot dd sv rfl rfl).elim
    | str s => rfl
    | seq l => rfl
  | str s => cases v <;> rfl
  | seq l => cases v <;> rfl


theorem dlookup_mergeEntry_ne (dest : Dict) (k k' : String) (v : Val) (h : k ≠ k') :
    dlookup (mergeEntry dest k' v) k = dlookup dest k := by
  cases hd : dlookup dest k' with
  | none =>
    rw [mergeEntry_none dest k' v hd]
    exact dlookup_append_single_ne dest k k' v (Ne.symm h)
  | some dv =>
    cases dv with
    | dict dd =>
      cases v with
      | dict sv =>
        rw [mergeEntry_dict_dict dest k' dd sv hd]
        exact dlookup_dictSet_ne dest k' k _ h
      | str s =>
        rw [mergeEntry_replace dest k' _ _ hd (fun _ _ _ h2 => Val.noConfusion h2)]
        exact dlookup_dictSet_ne dest k' k _ h
      | seq l =>
        rw [mergeEntry_replace dest k' _ _ hd (fun _ _ _ h2 => Val.noConfusion h2)]
        exact dlookup_dictSet_ne dest k' k _ h
    | str s' =>
      rw [mergeEntry_replace dest k' _ _ hd (fun _ _ h1 _ => Val.noConfusion h1)]
      exact dlookup_dictSet_ne dest k' k _ h
    | seq l' =>
      rw [mergeEntry_replace dest k' _ _ hd (fun _ _ h1 _ => Val.noConfusion h1)]
      exact dlookup_dictSet_ne dest k' k _ h


theorem dlookup_deep_merge_not_mem (src : Dict) (dest : Dict) (k : String)
    (h : ∀ p ∈ src, p.1 ≠ k) :
    dlookup (deep_merge dest src) k = dlookup dest k := by
  induction src generalizing dest with
  | nil => rfl
  | cons p rest ih =>
    obtain ⟨k', v⟩ := p
    have hk' : k ≠ k' := Ne.symm (h (k', v) (List.mem_cons_self _ _))
    rw [deep_merge, ih _ (fun q hq => h q (List.mem_cons_of_mem _ hq)),
      dlookup_mergeEntry_ne dest k k' v hk']


theorem dlookup_mergeEntry_scalar_self (dest : Dict) (k : String) (s : String) :
    dlookup (mergeEntry dest k (Val.str s)) k = some (Val.str s) := by
  cases hd : dlookup dest k with
  | none =>
    rw [mergeEntry_none dest k _ hd]
    exact dlookup_append_single_self dest k _ hd
  | some dv =>
    rw [mergeEntry_replace dest k _ _ hd (fun _ _ _ h2 => Val.noConfusion h2)]
    exact dlookup_dictSet_self dest k _


theorem dlookup_deep_merge_scalar (src : Dict) (dest : Dict) (k : String) (s : String)
    (hnd : (src.map Prod.fst).Nodup) (h : dlookup src k = some (Val.str s)) :
    dlookup (deep_merge dest src) k = some (Val.str s) := by
  induction src generalizing dest with
  | nil => simp [dlookup] at h
  | cons p rest ih =>
    obtain ⟨k', v⟩ := p
    simp only [List.map_cons, List.nodup_cons] at hnd
    by_cases hk : k' = k
    · subst hk
      rw [dlookup] at h
      simp only [if_pos rfl] at h
      cases h
      rw [deep_merge]
      have hrest : ∀ p ∈ rest, p.1 ≠ k' := by
        intro q hq hqk
        exact hnd.1 (List.mem_map.mpr ⟨q, hq, hqk⟩)
      rw [dlookup_deep_merge_not_mem rest _ k' hrest]
      exact dlookup_mergeEntry_scalar_self dest k' s
    · rw [dlookup] at h
      simp only [if_neg hk] at h
      rw [deep_merge]
      exact ih _ hnd.2 h


/-- Claim C2, counterexample.  The override directory contains files `a` and
`b` that set the same scalar key `x` to different values.  The code merges
them in the order `os.listdir` returned them, without sorting; for the listing
order `[b, a]` the assembled value of `x` is `A` (the last file merged),
while the lexicographic order the claim prescribes yields `B`.  The assembled
result therefore depends on the listing order, which is not determined by the
directory contents, refuting the claim. -/
theorem C2_counterexample :
    dlookup (assembleConfig [("x", Val.str "0")] []
      [("b", [("x", Val.str "B")]), ("a", [("x", Val.str "A")])]) "x"
      = some (Val.str "A") ∧
    dlookup (assembleConfigSorted [("x", Val.str "0")] []
      [("b", [("x", Val.str "B")]), ("a", [("x", Val.str "A")])]) "x"
      = some (Val.str "B") ∧
    some (Val.str "A") ≠ some (Val.str "B") := by
  refine ⟨rfl, rfl, ?_⟩
  intro h
  have h' := Option.some.inj h
  have h'' := (Val.str.injEq _ _).mp h'
  simp at h''


/-- Claim C2 (amended): ClickhouseConfig.load builds the configuration by
loading the main config, deep-merging the cluster config into it, and then
deep-merging every file of the override directory in the order returned by
the directory listing (`os.listdir`), which the code does not sort.  For a
fixed listing the result is deterministic, each later file being deep-merged
on top of the accumulated result, and a scalar entry defined by the last
file overrides every earlier value of that key. -/
theorem C2_assembly_order (main cluster : Dict) (files : List (String × Dict))
    (name : String) (d : Dict) (k : String) (v : String)
    (hnd : (d.map Prod.fst).Nodup)
    (hk : dlookup d k = some (Val.str v)) :
    assembleConfig main cluster (files ++ [(name, d)])
      = deep_merge (assembleConfig main cluster files) d ∧
    dlookup (assembleConfig main cluster (files ++ [(name, d)])) k = some (Val.str v) := by
  have hconcat : assembleConfig main cluster (files ++ [(name, d)])
      = deep_merge (assembleConfig main cluster files) d := by
    rw [assembleConfig, List.foldl_append]
    rfl
  exact ⟨hconcat, by rw [hconcat]; exact dlookup_deep_merge_scalar d _ k v hnd hk⟩


theorem C2_assembly_order_witness :
    dlookup (assembleConfig [("x", Val.str "0")] [("y", Val.str "c")]
      ([("f1", [("x", Val.str "f1v")])] ++ [("f2", [("x", Val.str "A")])])) "x"
      = some (Val.str "A") :=
  (C2_assembly_order [("x", Val.str "0")] [("y", Val.str "c")]
    [("f1", [("x", Val.str "f1v")])] "f2" [("x", Val.str "A")] "x" "A"
    (by decide) rfl).2


theorem dlookup_maskItems (d : List (String × Val)) (k : String) :
    dlookup (maskItems d) k = (dlookup d k).map (maskEntry k) := by
  induction d with
  | nil => rfl
  | cons p rest ih =>
    obtain ⟨k0, v0⟩ := p
    by_cases h : k0 = k
    · subst h
      simp [maskItems, dlookup]
    · simp [maskItems, dlookup, h, ih]


theorem lookupPath_nil (v : Val) : lookupPath v [] = some v := by cases v <;> rfl


theorem lookupPath_str (s : String) (k : String) (rest : List String) :
    lookupPath (Val.str s) (k :: rest) = none := rfl


theorem lookupPath_seq (l : List Val) (k : String) (rest : List String) :
    lookupPath (Val.seq l) (k :: rest) = none := rfl


theorem lookupPath_dict (d : List (String × Val)) (k : String) (rest : List String) :
    lookupPath (Val.dict d) (k :: rest)
      = (match dlookup d k with
         | some v => lookupPath v rest
         | none => none) := rfl


theorem lookupPath_append (doc : Val) (p q : List String) :
    lookupPath doc (p ++ q) = (lookupPath doc p).bind (fun w => lookupPath w q) := by
  induction p generalizing doc with
  | nil => cases doc <;> rfl
  | cons k rest ih =>
    cases doc with
    | str s => rfl
    | seq l => rfl
    | dict d =>
      rw [List.cons_append, lookupPath_dict, lookupPath_dict]
      cases hdk : dlookup d k with
      | none => rfl
      | some v => exact ih v


theorem lookupPath_dict_mask (path : List String) (doc : Val) (d : List (String × Val))
    (h : lookupPath doc path = some (Val.dict d)) :
    lookupPath (mask_secrets doc) path = some (Val.dict (maskItems d)) := by
  induction path generalizing doc with
  | nil =>
    rw [lookupPath_nil] at h
    cases Option.some.inj h
    rfl
  | cons k rest ih =>
    cases doc with
    | str s => rw [lookupPath_str] at h; exact absurd h Option.noConfusion
    | seq l => rw [lookupPath_seq] at h; exact absurd h Option.noConfusion
    | dict d0 =>
      rw [lookupPath_dict] at h
      cases hv : dlookup d0 k with
      | none => rw [hv] at h; exact absurd h Option.noConfusion
      | some v =>
        rw [hv] at h
        replace h : lookupPath v rest = some (Val.dict d) := h
        have hmv : dlookup (maskItems d0) k = some (maskEntry k v) := by
          rw [dlookup_maskItems, hv]; rfl
        have hstep : lookupPath (mask_secrets (Val.dict d0)) (k :: rest)
            = lookupPath (maskEntry k v) rest := by
          rw [show mask_secrets (Val.dict d0) = Val.dict (maskItems d0) from rfl,
            lookupPath_dict, hmv]
        rw [hstep]
        cases v with
        | dict dd => exact ih (Val.dict dd) h
        | str s =>
          cases rest with
          | nil =>
            rw [lookupPath_nil] at h
            exact absurd (Option.some.inj h) (fun hh => Val.noConfusion hh)
          | cons r rs => rw [lookupPath_str] at h; exact absurd h Option.noConfusion
        | seq l =>
          cases rest with
          | nil =>
            rw [lookupPath_nil] at h
            exact absurd (Option.some.inj h) (fun hh => Val.noConfusion hh)
          | cons r rs => rw [lookupPath_seq] at h; exact absurd h Option.noConfusion


/-- Claim C3, counterexample.  First input: a mapping whose key `users` holds
a sequence (list) node containing a mapping with key `password`.  The claim
requires the masking pass to visit that nested mapping and replace the
password value with '*****'; `_mask_secrets` never descends into list values,
so the document comes back entirely unchanged.  Second input: a key
`password` whose value is itself a mapping; the claim requires replacement
regardless of the value's type, but the code recurses into mapping values
instead of masking them, leaving this document unchanged as well. -/
theorem C3_counterexample :
    mask_secrets (Val.dict [("users", Val.seq [Val.dict [("password", Val.str "secret123")]])])
      = Val.dict [("users", Val.seq [Val.dict [("password", Val.str "secret123")]])] ∧
    mask_secrets (Val.dict [("password", Val.dict [("x", Val.str "1")])])
      = Val.dict [("password", Val.dict [("x", Val.str "1")])] :=
  ⟨rfl, rfl⟩


/-- Claim C3 (amended): the masking pass applied by dump with
mask_secrets=true visits every mapping node reachable from the root through
mapping values only — it does not descend into sequence (list) nodes — and
for every key named 'password', 'secret_access_key', 'header', or 'identity'
whose value is not itself a mapping, replaces that key's value with the mask
token '*****' (a denylisted key whose value is a mapping is recursed into
instead of masked); every other key and value is left unchanged. -/
theorem C3_mask_secrets (doc : Val) (path : List String) (k : String) (v : Val)
    (hlook : lookupPath doc (path ++ [k]) = some v)
    (hnotdict : ∀ d, v ≠ Val.dict d) :
    lookupPath (mask_secrets doc) (path ++ [k])
      = some (if isSecretKey k then Val.str "*****" else v) := by
  rw [lookupPath_append] at hlook
  cases hw : lookupPath doc path with
  | none => rw [hw] at hlook; exact absurd hlook Option.noConfusion
  | some w =>
    rw [hw] at hlook
    replace hlook : lookupPath w [k] = some v := hlook
    cases w with
    | str s => rw [lookupPath_str] at hlook; exact absurd hlook Option.noConfusion
    | seq l => rw [lookupPath_seq] at hlook; exact absurd hlook Option.noConfusion
    | dict d =>
      rw [lookupPath_dict] at hlook
      cases hv : dlookup d k with
      | none => rw [hv] at hlook; exact absurd hlook Option.noConfusion
      | some u =>
        rw [hv] at hlook
        replace hlook : lookupPath u [] = some v := hlook
        rw [lookupPath_nil] at hlook
        cases Option.some.inj hlook
        have hmv : dlookup (maskItems d) k = some (maskEntry k v) := by
          rw [dlookup_maskItems, hv]; rfl
        have hres : lookupPath (mask_secrets doc) (path ++ [k])
            = lookupPath (maskEntry k v) [] := by
          rw [lookupPath_append, lookupPath_dict_mask path doc d hw]
          show lookupPath (Val.dict (maskItems d)) [k] = _
          rw [lookupPath_dict, hmv]
        rw [hres, lookupPath_nil]
        cases v with
        | dict dd => exact absurd rfl (hnotdict dd)
        | str s => rfl
        | seq l => rfl


theorem C3_mask_secrets_witness :
    lookupPath (mask_secrets (Val.dict [("a",
        Val.dict [("password", Val.str "secret123"), ("other", Val.str "keep")])]))
      (["a"] ++ ["password"]) = some (Val.str "*****") ∧
    lookupPath (mask_secrets (Val.dict [("a",
        Val.dict [("password", Val.str "secret123"), ("other", Val.str "keep")])]))
      (["a"] ++ ["other"]) = some (Val.str "keep") := by
  constructor
  · have h := C3_mask_secrets
      (Val.dict [("a", Val.dict [("password", Val.str "secret123"), ("other", Val.str "keep")])])
      ["a"] "password" (Val.str "secret123") rfl (fun d hh => Val.noConfusion hh)
    simpa using h
  · have h := C3_mask_secrets
      (Val.dict [("a", Val.dict [("password", Val.str "secret123"), ("other", Val.str "keep")])])
      ["a"] "other" (Val.str "keep") rfl (fun d hh => Val.noConfusion hh)
    simpa using h


/-- Claim C4: for every config view (ClickhouseConfig, ClickhouseUsersConfig,
ClickhouseKeeperConfig), every underlying document and either value of the
mask flag, dump and dump_xml leave the view's underlying configuration tree
exactly as it was before the call — the redaction operates on a deep copy
and never mutates its input.  The dumped value itself is the masked copy
(`mask_secrets` of the tree) when masking is on, and the tree itself when
off. -/
theorem C4_dump_no_mutation (c : ClickhouseConfig) (u : ClickhouseUsersConfig)
    (k : ClickhouseKeeperConfig) (m : Bool) :
    (c.dump m).2 = c ∧ (c.dump_xml m).2 = c ∧
    (u.dump m).2 = u ∧ (u.dump_xml m).2 = u ∧
    (k.dump m).2 = k ∧ (k.dump_xml m).2 = k ∧
    (c.dump true).1 = mask_secrets c.config ∧
    (c.dump false).1 = c.config :=
  ⟨rfl, rfl, rfl, rfl, rfl, rfl, rfl, rfl⟩


theorem retryCall_ok {α : Type} (f : Nat → Except QueryException α) (i n : Nat) (a : α)
    (h : f i = Except.ok a) : retryCall f i (n + 1) = (Except.ok a, i + 1) := by
  simp [retryCall, h]


theorem retryCall_step {α : Type} (f : Nat → Except QueryException α) (i n : Nat)
    (e : QueryException) (h : f i = Except.error e) (hr : retryable e = true) :
    retryCall f i (n + 2) = retryCall f (i + 1) (n + 1) := by
  simp [retryCall, h, hr]


theorem retryCall_last {α : Type} (f : Nat → Except QueryException α) (i : Nat)
    (e : QueryException) (h : f i = Except.error e) :
    retryCall f i 1 = (Except.error e, i + 1) := by
  simp [retryCall, h]


theorem retryCall_noretry {α : Type} (f : Nat → Except QueryException α) (i n : Nat)
    (e : QueryException) (h : f i = Except.error e) (hr : retryable e = false) :
    retryCall f i (n + 1) = (Except.error e, i + 1) := by
  cases n with
  | zero => simp [retryCall, h]
  | succ n' => simp [retryCall, h, hr]


theorem queryOnce_conn (c : ClickhouseClient) (q : String) (fmt : Option String)
    (tArg : Option Nat) (transport : PostRequest → TransportOutcome) (s : String)
    (h : ∀ req, transport req = TransportOutcome.connError s) :
    queryOnce c q fmt tArg false transport
      = Except.error (QueryException.connectionError s) := by
  simp [queryOnce, h]


/-- Claim C5: ClickhouseClient.query retries only transport-level connection
errors, up to a ceiling of 5 attempts, with randomized exponential backoff
whose wait is bounded by the configured maximum interval: when the transport
raises a connection error on the first 4 attempts and succeeds on the 5th,
the success result of the 5th attempt is returned and exactly 5 attempts are
made; when every attempt raises a connection error, exactly 5 attempts are
made and the last connection error propagates to the caller unchanged. -/
theorem C5_retry (c : ClickhouseClient) (q : String) (fmt : Option String)
    (tArg : Option Nat) (transport : Nat → PostRequest → TransportOutcome)
    (es : Nat → String) (r : HTTPResponse) :
    (∀ e, retryable e = true ↔ ∃ s, e = QueryException.connectionError s) ∧
    (∀ n : Nat, waitRandomExponentialHigh (1 / 2) 5 n ≤ 5) ∧
    ((∀ i, i < 4 → ∀ req, transport i req = TransportOutcome.connError (es i)) →
      (∀ req, transport 4 req = TransportOutcome.response r) →
      r.status < 400 →
      queryWithRetry c q fmt tArg false transport
        = (queryOnce c q fmt tArg false (transport 4), 5) ∧
      ∃ res, queryOnce c q fmt tArg false (transport 4) = Except.ok res) ∧
    ((∀ i, i < 5 → ∀ req, transport i req = TransportOutcome.connError (es i)) →
      queryWithRetry c q fmt tArg false transport
        = (Except.error (QueryException.connectionError (es 4)), 5)) := by
  refine ⟨?_, ?_, ?_, ?_⟩
  · intro e
    cases e with
    | connectionError s => simp [retryable]
    | clickhouseError qq rr => simp [retryable]
  · intro n
    exact min_le_left _ _
  · intro hfail hok hstatus
    have hf : ∀ i, i < 4 →
        (fun j => queryOnce c q fmt tArg false (transport j)) i
          = Except.error (QueryException.connectionError (es i)) := by
      intro i hi
      exact queryOnce_conn c q fmt tArg (transport i) (es i) (hfail i hi)
    have hchain : queryWithRetry c q fmt tArg false transport
        = retryCall (fun j => queryOnce c q fmt tArg false (transport j)) 4 1 := by
      rw [queryWithRetry]
      rw [retryCall_step _ 0 3 (QueryException.connectionError (es 0)) (hf 0 (by omega)) rfl,
        retryCall_step _ 1 2 (QueryException.connectionError (es 1)) (hf 1 (by omega)) rfl,
        retryCall_step _ 2 1 (QueryException.connectionError (es 2)) (hf 2 (by omega)) rfl,
        retryCall_step _ 3 0 (QueryException.connectionError (es 3)) (hf 3 (by omega)) rfl]
    have hsucc : ∃ res, queryOnce c q fmt tArg false (transport 4) = Except.ok res := by
      have hcond : ¬ (400 ≤ r.status ∧ r.status ≤ 599) := by omega
      by_cases hj : fmt = some "JSON" ∨ fmt = some "JSONCompact"
      · exact ⟨QueryResult.jsonBody r.body, by simp [queryOnce, hok, hcond, hj]⟩
      · exact ⟨QueryResult.text (pyStrip r.body), by simp [queryOnce, hok, hcond, hj]⟩
    obtain ⟨res, hres⟩ := hsucc
    refine ⟨?_, ⟨res, hres⟩⟩
    rw [hchain, retryCall_ok _ 4 0 res hres, hres]
  · intro hfail
    have hf : ∀ i, i < 5 →
        (fun j => queryOnce c q fmt tArg false (transport j)) i
          = Except.error (QueryException.connectionError (es i)) := by
      intro i hi
      exact queryOnce_conn c q fmt tArg (transport i) (es i) (hfail i hi)
    rw [queryWithRetry]
    rw [retryCall_step _ 0 3 (QueryException.connectionError (es 0)) (hf 0 (by omega)) rfl,
      retryCall_step _ 1 2 (QueryException.connectionError (es 1)) (hf 1 (by omega)) rfl,
      retryCall_step _ 2 1 (QueryException.connectionError (es 2)) (hf 2 (by omega)) rfl,
      retryCall_step _ 3 0 (QueryException.connectionError (es 3)) (hf 3 (by omega)) rfl,
      retryCall_last _ 4 (QueryException.connectionError (es 4)) (hf 4 (by omega))]


theorem C5_retry_witness :
    queryWithRetry (mkClient "host" none none []) "SELECT 1" none none false
      (fun i _ => if i < 4 then TransportOutcome.connError "boom"
                  else TransportOutcome.response ⟨200, "ok"⟩)
      = (Except.ok (QueryResult.text "ok"), 5) ∧
    queryWithRetry (mkClient "host" none none []) "SELECT 1" none none false
      (fun _ _ => TransportOutcome.connError "down")
      = (Except.error (QueryException.connectionError "down"), 5) := by
  constructor
  · have h := (C5_retry (mkClient "host" none none []) "SELECT 1" none none
      (fun i _ => if i < 4 then TransportOutcome.connError "boom"
                  else TransportOutcome.response ⟨200, "ok"⟩)
      (fun _ => "boom") ⟨200, "ok"⟩).2.2.1
      (by intro i hi req; simp [hi])
      (by intro req; simp)
      (by decide)
    rw [h.1]
    rfl
  · have h := (C5_retry (mkClient "host" none none []) "SELECT 1" none none
      (fun _ _ => TransportOutcome.connError "down")
      (fun _ => "down") ⟨200, "ok"⟩).2.2.2
      (by intro i hi req; rfl)
    exact h


/-- Claim C6, counterexample.  A completed HTTP response with the non-2xx
status 304: `response.raise_for_status()` raises `HTTPError` only for
statuses 400-599, so instead of the claimed ClickhouseError the call treats
the response as a success and returns its stripped body text. -/
theorem C6_counterexample :
    ¬ (200 ≤ 304 ∧ 304 ≤ 299) ∧
    queryOnce (mkClient "host" none none []) "SELECT 1" none none false
      (fun _ => TransportOutcome.response ⟨304, "unmodified"⟩)
      = Except.ok (QueryResult.text "unmodified") :=
  ⟨by decide, rfl⟩


/-- Claim C6 (amended): if the HTTP POST issued by ClickhouseClient.query
completes with a status in the 400-599 range (the statuses for which
`raise_for_status` raises; statuses outside 2xx but below 400 are treated as
success), the call raises ClickhouseError carrying the whitespace-normalised
query text — leading/trailing whitespace stripped and whitespace runs around
newlines collapsed to single spaces — together with the raw error response,
and this HTTP-status failure is never retried: the retry loop makes exactly
one attempt. -/
theorem C6_http_status_error (c : ClickhouseClient) (q : String) (fmt : Option String)
    (tArg : Option Nat) (transport : PostRequest → TransportOutcome) (r : HTTPResponse)
    (ht : ∀ req, transport req = TransportOutcome.response r)
    (h4 : 400 ≤ r.status) (h5 : r.status ≤ 599) :
    queryOnce c q fmt tArg false transport
      = Except.error (QueryException.clickhouseError
          (normalizeQuery (buildQueryText q fmt)) r) ∧
    queryWithRetry c q fmt tArg false (fun _ => transport)
      = (Except.error (QueryException.clickhouseError
          (normalizeQuery (buildQueryText q fmt)) r), 1) ∧
    normalizeQuery "  SELECT 1  \n   FROM t  " = "SELECT 1 FROM t" := by
  have h1 : queryOnce c q fmt tArg false transport
      = Except.error (QueryException.clickhouseError
          (normalizeQuery (buildQueryText q fmt)) r) := by
    simp [queryOnce, ht, h4, h5]
  refine ⟨h1, ?_, rfl⟩
  rw [queryWithRetry]
  exact retryCall_noretry _ 0 4 _ h1 rfl


theorem C6_http_status_error_witness :
    queryOnce (mkClient "host" none none []) "a \n b" none none false
      (fun _ => TransportOutcome.response ⟨500, "err"⟩)
      = Except.error (QueryException.clickhouseError "a b" ⟨500, "err"⟩) ∧
    queryWithRetry (mkClient "host" none none []) "a \n b" none none false
      (fun _ _ => TransportOutcome.response ⟨500, "err"⟩)
      = (Except.error (QueryException.clickhouseError "a b" ⟨500, "err"⟩), 1) := by
  have h := C6_http_status_error (mkClient "host" none none []) "a \n b" none none
    (fun _ => TransportOutcome.response ⟨500, "err"⟩) ⟨500, "err"⟩
    (fun _ => rfl) (by decide) (by decide)
  exact ⟨h.1, h.2.1⟩


/-- Claim C7: for every call of ClickhouseClient.query that reaches the
network, the timeout passed to the HTTP request equals
`max(client-default timeout, per-call override)`, a missing per-call
override counting as 0 and the client default being 60 when none is given
at construction; hence a per-call override can never lower the effective
timeout below the client default. -/
theorem C7_effective_timeout (host : String) (port : Option Nat) (tInit : Option Nat)
    (settings : List (String × String)) (q : String) (fmt : Option String)
    (tCall : Option Nat) :
    (buildRequest (mkClient host port tInit settings) q fmt tCall).timeout
      = max (tInit.getD 60) (tCall.getD 0) ∧
    (mkClient host port none settings).timeout = 60 ∧
    ∀ (c : ClickhouseClient) (tc : Option Nat),
      c.timeout ≤ (buildRequest c q fmt tc).timeout :=
  ⟨rfl, rfl, fun c tc => le_max_left c.timeout (tc.getD 0)⟩


/-- Claim C8: _format_str_match returns no clause on an absent value,
`LIKE '<value>'` when the input has no comma, and otherwise
`IN ('<a>','<b>',...)` formed by splitting the input on commas and stripping
surrounding whitespace from each item; _format_str_imatch returns no clause
on an absent value and otherwise equals _format_str_match of the lowercased
input.  In particular "abc" yields "LIKE 'abc'" and "a, b,c" yields
"IN ('a','b','c')". -/
theorem C8_format_str_match :
    format_str_match none = none ∧
    format_str_imatch none = none ∧
    (∀ v : String, containsChar v ',' = false →
       format_str_match (some v) = some ("LIKE '" ++ v ++ "'")) ∧
    (∀ v : String, containsChar v ',' = true →
       format_str_match (some v)
         = some ("IN (" ++ String.intercalate ","
             ((pySplit v ',').map (fun item => "'" ++ pyStrip item ++ "'")) ++ ")")) ∧
    (∀ v : String, format_str_imatch (some v) = format_str_match (some v.toLower)) ∧
    format_str_match (some "abc") = some "LIKE 'abc'" ∧
    format_str_match (some "a, b,c") = some "IN ('a','b','c')" := by
  refine ⟨rfl, rfl, ?_, ?_, fun v => rfl, rfl, rfl⟩
  · intro v h
    simp [format_str_match, h]
  · intro v h
    simp [format_str_match, h]


theorem C8_format_str_match_witness :
    format_str_match (some "abc") = some "LIKE 'abc'" ∧
    format_str_match (some "a, b,c")
      = some ("IN (" ++ String.intercalate ","
          ((pySplit "a, b,c" ',').map (fun item => "'" ++ pyStrip item ++ "'")) ++ ")") :=
  ⟨C8_format_str_match.2.2.1 "abc" rfl, C8_format_str_match.2.2.2.1 "a, b,c" rfl⟩


theorem renderSeq_cached (serverVersion v : String) (vs : List String)
    (c : ClickhouseClient) (h : c.chVersion = some v) :
    renderSeq c serverVersion vs = (vs.map (fun x => version_ge v x), c, 0) := by
  induction vs with
  | nil => rfl
  | cons x rest ih =>
    simp [renderSeq, renderVersionGe, get_clickhouse_version, h, ih]


/-- Claim C9: get_clickhouse_version issues the `SELECT version()` query at
most once per client instance — the first call on a fresh client issues it
and stores the result, a call on a client holding a cached version returns
the cached value with no query — and across any number of render_query
invocations evaluating version_ge on the same client the query is issued at
most once while every evaluation uses the cached server version; a freshly
constructed client starts with an empty cache.  With a server reporting
"22.3", version_ge renders "22.1" as true and "23.0" as false. -/
theorem C9_version_memoized (host : String) (port tInit : Option Nat)
    (settings : List (String × String)) (sv : String) (vs : List String) :
    get_clickhouse_version (mkClient host port tInit settings) sv
      = (sv, { mkClient host port tInit settings with chVersion := some sv }, 1) ∧
    (∀ (c : ClickhouseClient) (v : String),
       get_clickhouse_version { c with chVersion := some v } sv
         = (v, { c with chVersion := some v }, 0)) ∧
    (mkClient host port tInit settings).chVersion = none ∧
    (renderSeq (mkClient host port tInit settings) sv vs).2.2 ≤ 1 ∧
    (renderSeq (mkClient host port tInit settings) sv vs).1
      = vs.map (fun x => version_ge sv x) ∧
    version_ge "22.3" "22.1" = true ∧
    version_ge "22.3" "23.0" = false := by
  have key : ∀ (x : String) (rest : List String),
      renderSeq (mkClient host port tInit settings) sv (x :: rest)
        = (version_ge sv x :: rest.map (fun y => version_ge sv y),
           { mkClient host port tInit settings with chVersion := some sv }, 1) := by
    intro x rest
    have hcache := renderSeq_cached sv sv rest
      { mkClient host port tInit settings with chVersion := some sv } rfl
    have hfresh : get_clickhouse_version (mkClient host port tInit settings) sv
        = (sv, { mkClient host port tInit settings with chVersion := some sv }, 1) := rfl
    simp only [renderSeq, renderVersionGe, hfresh, hcache]
  refine ⟨rfl, fun c v => rfl, rfl, ?_, ?_, rfl, rfl⟩
  · cases vs with
    | nil => exact Nat.zero_le 1
    | cons x rest => rw [key x rest]
  · cases vs with
    | nil => rfl
    | cons x rest => rw [key x rest]; rfl


/-- Claim C10: for every configuration, ClickhouseConfig.macros returns
exactly the entries of the config's macros section whose key does not start
with '@' (XML attribute entries are silently dropped), and returns an empty
mapping when the macros section is absent; cluster_name reads the 'cluster'
entry of this filtered mapping. -/
theorem C10_macros (config : Dict) (m : List (String × Val)) (k : String) (v : Val) :
    (dlookup (configRoot config) "macros" = some (Val.dict m) →
       (((k, v) ∈ macros config) ↔ ((k, v) ∈ m ∧ k.startsWith "@" = false))) ∧
    (dlookup (configRoot config) "macros" = none → macros config = []) ∧
    cluster_name config = dlookup (macros config) "cluster" := by
  refine ⟨?_, ?_, rfl⟩
  · intro h
    have hm : macros config = m.filter (fun kv => !(kv.1.startsWith "@")) := by
      rw [macros.eq_def, h]
    rw [hm]
    simp [List.mem_filter]
  · intro h
    rw [macros.eq_def, h]


theorem C10_macros_witness :
    ((("cluster", Val.str "c1") ∈ macros
        [("clickhouse", Val.dict [("macros",
          Val.dict [("cluster", Val.str "c1"), ("@replica", Val.str "r")])])]) ↔
      ((("cluster", Val.str "c1")
          ∈ ([("cluster", Val.str "c1"), ("@replica", Val.str "r")] : Dict)) ∧
        ("cluster").startsWith "@" = false)) ∧
    cluster_name
        [("clickhouse", Val.dict [("macros",
          Val.dict [("cluster", Val.str "c1"), ("@replica", Val.str "r")])])]
      = dlookup (macros
          [("clickhouse", Val.dict [("macros",
            Val.dict [("cluster", Val.str "c1"), ("@replica", Val.str "r")])])]) "cluster" :=
  ⟨(C10_macros
      [("clickhouse", Val.dict [("macros",
        Val.dict [("cluster", Val.str "c1"), ("@replica", Val.str "r")])])]
      [("cluster", Val.str "c1"), ("@replica", Val.str "r")]
      "cluster" (Val.str "c1")).1 rfl,
   (C10_macros
      [("clickhouse", Val.dict [("macros",
        Val.dict [("cluster", Val.str "c1"), ("@replica", Val.str "r")])])]
      [("cluster", Val.str "c1"), ("@replica", Val.str "r")]
      "cluster" (Val.str "c1")).2.2⟩


end ChTools
